import Mathlib

/-!
Verification of the UserKNN item-recommendation engine
(`caserec/recommenders/item_recommendation/userknn.py`).

The model is a shallow embedding of the class state and of the methods
`init_model`-derived structures, `predict`, `predict_scores` and
`predict_similar_first_scores`.  Radii of fidelity:

* similarities and ratings are exact rationals (the idealisation of the
  floating-point matrices, as in the specification's "real-valued" reading);
* Python's `sorted` is a stable sort; it is modelled by `List.insertionSort`,
  which is stable and sorts with respect to the comparison given;
* Python slices `l[:n]` and `l[1:n]` with possibly negative `int` bounds are
  modelled by `pySliceTo` / `pySliceOneTo`;
* `set(...).intersection(...)` produces a set; its iteration order is
  irrelevant for the rational sum taken over it, so it is modelled by
  `dedup`/`filter` in a fixed order;
* user keys and item keys are natural numbers; `self.items[item]` is
  `m.items.getD item 0` (candidates are always in range, so the default is
  never reached on reachable inputs).
-/

/-- The number of elements Python's slice `l[:n]` keeps, for an `int` bound
`n` and a list of length `len`: a nonnegative bound keeps the first `n`
elements, a negative bound drops the last `|n|` elements. -/
def pyStop (n : Int) (len : Nat) : Nat :=
  if 0 ≤ n then n.toNat else len - n.natAbs

/-- Python's slice `l[:n]` for an `int` bound `n`. -/
def pySliceTo {α : Type} (n : Int) (l : List α) : List α :=
  l.take (pyStop n l.length)

/-- Python's slice `l[1:n]` for an `int` bound `n` (used for
`neighbors[1:self.k_neighbors]`).  For every `int` bound `n`,
`l[1:n] == l[:n][1:]`. -/
def pySliceOneTo {α : Type} (n : Int) (l : List α) : List α :=
  (pySliceTo n l).drop 1

/-- The state of a `UserKNN` object after `init_model`:

* `users`, `items` — the key lists `self.users`, `self.items`;
* `feedback` — `self.train_set['feedback']` (for each user key, the list of
  items with recorded feedback; only its emptiness is ever read);
* `matrix` — the dense rating matrix `self.matrix` (|U|×|I|);
* `su_matrix` — the user-user similarity matrix (|U|×|U|);
* `users_id_viewed_item` — `self.users_id_viewed_item` (item index ↦ list of
  user indices that rated the item, `.get(item, [])` defaulting to `[]`);
* `k_neighbors`, `rank_length` — the resolved configuration integers;
* `as_similar_first` — the strategy flag;
* `ranking` — `self.ranking`, the output triples `(user key, item key, score)`. -/
structure UserKNNModel where
  users : List Nat
  items : List Nat
  feedback : Nat → List Nat
  matrix : Nat → Nat → ℚ
  su_matrix : Nat → Nat → ℚ
  users_id_viewed_item : Nat → List Nat
  k_neighbors : Int
  rank_length : Int
  as_similar_first : Bool
  ranking : List (Nat × Nat × ℚ)

/-- `sorted(predictions, key=lambda x: -x[2])`: stable sort, descending by
the score component, ties keeping the input order. -/
def sortByDescScore (l : List (Nat × Nat × ℚ)) : List (Nat × Nat × ℚ) :=
  l.insertionSort fun a b => b.2.2 ≤ a.2.2

/-- The score `predict_scores` computes for one unpredicted item: the
similarities between `user_id` and the item's raters, sorted descending
(`sorted(sim_sum, reverse=True)`), then `sum(sim_sum[:self.k_neighbors])`. -/
def sim_sum_scores (m : UserKNNModel) (user_id item : Nat) : ℚ :=
  (pySliceTo m.k_neighbors
    (((m.users_id_viewed_item item).map fun user_v =>
        m.su_matrix user_id user_v).insertionSort fun a b => b ≤ a)).sum

/-- The prediction list `predict_scores` builds before sorting and
truncating: one `(user, self.items[item], sim_sum)` triple per unpredicted
item, in the enumeration order of `unpredicted_items`. -/
def predictionsA (m : UserKNNModel) (user user_id : Nat)
    (unpredicted_items : List Nat) : List (Nat × Nat × ℚ) :=
  unpredicted_items.map fun item =>
    (user, m.items.getD item 0, sim_sum_scores m user_id item)

/-- `predict_scores` (Strategy A): score every unpredicted item, then
`sorted(predictions, key=lambda x: -x[2])[:self.rank_length]`. -/
def predict_scores (m : UserKNNModel) (user user_id : Nat)
    (unpredicted_items : List Nat) : List (Nat × Nat × ℚ) :=
  pySliceTo m.rank_length
    (sortByDescScore (predictionsA m user user_id unpredicted_items))

/-- `sorted(range(len(self.su_matrix[user_id])), key=lambda m: -self.su_matrix[user_id][m])`:
all user indices sorted by descending similarity to `user_id`; the sort is
stable over the ascending `range`, so ties are in ascending index order.
The similarity matrix is |U|×|U|, so its row length is `m.users.length`. -/
def neighborsOf (m : UserKNNModel) (user_id : Nat) : List Nat :=
  (List.range m.users.length).insertionSort
    fun a b => m.su_matrix user_id b ≤ m.su_matrix user_id a

/-- The neighbor set of Strategy B: `neighbors[1:self.k_neighbors]`. -/
def neighborSlice (m : UserKNNModel) (user_id : Nat) : List Nat :=
  pySliceOneTo m.k_neighbors (neighborsOf m user_id)

/-- The score `predict_similar_first_scores` computes for one unpredicted
item: the sum of `su_matrix[user_id, v]` over
`set(raters).intersection(neighbors[1:k])`.  The Python value is a set, so
duplicates in the rater list contribute once (`dedup`) and the iteration
order is irrelevant for the rational sum. -/
def sim_sum_similar_first (m : UserKNNModel) (user_id item : Nat) : ℚ :=
  (((m.users_id_viewed_item item).dedup.filter
      fun v => v ∈ neighborSlice m user_id).map
    fun user_v => m.su_matrix user_id user_v).sum

/-- The prediction list `predict_similar_first_scores` builds before sorting
and truncating. -/
def predictionsB (m : UserKNNModel) (user user_id : Nat)
    (unpredicted_items : List Nat) : List (Nat × Nat × ℚ) :=
  unpredicted_items.map fun item =>
    (user, m.items.getD item 0, sim_sum_similar_first m user_id item)

/-- `predict_similar_first_scores` (Strategy B). -/
def predict_similar_first_scores (m : UserKNNModel) (user user_id : Nat)
    (unpredicted_items : List Nat) : List (Nat × Nat × ℚ) :=
  pySliceTo m.rank_length
    (sortByDescScore (predictionsB m user user_id unpredicted_items))

/-- `list(np.flatnonzero(self.matrix[u_id] == 0))`: the item indices with no
recorded interaction for `u_id`, in ascending order.  The rating matrix is
|U|×|I|, so its row length is `m.items.length`. -/
def unpredictedItems (m : UserKNNModel) (u_id : Nat) : List Nat :=
  (List.range m.items.length).filter fun i => m.matrix u_id i = 0

/-- The strategy dispatch of the loop body of `predict`:
`self.predict_similar_first_scores(...)` when `as_similar_first` else
`self.predict_scores(...)`, over the user's unpredicted items. -/
def strategyScores (m : UserKNNModel) (user u_id : Nat) :
    List (Nat × Nat × ℚ) :=
  if m.as_similar_first then
    predict_similar_first_scores m user u_id (unpredictedItems m u_id)
  else
    predict_scores m user u_id (unpredictedItems m u_id)

/-- The ranking entries one `(u_id, user)` pair contributes in `predict`:
nothing when `len(self.train_set['feedback'].get(user, [])) == 0`
(the cold-start `pass` branch), the strategy output otherwise. -/
def userEntries (m : UserKNNModel) (u_id user : Nat) :
    List (Nat × Nat × ℚ) :=
  if (m.feedback user).length ≠ 0 then strategyScores m user u_id else []

/-- One iteration of `predict`'s loop body for `p = (u_id, user)`:
`self.ranking += ...` on the current state. -/
def predictStep (m : UserKNNModel) (p : Nat × Nat) : UserKNNModel :=
  if (m.feedback p.2).length ≠ 0 then
    if m.as_similar_first then
      { m with ranking := m.ranking ++
          predict_similar_first_scores m p.2 p.1 (unpredictedItems m p.1) }
    else
      { m with ranking := m.ranking ++
          predict_scores m p.2 p.1 (unpredictedItems m p.1) }
  else m

/-- `predict`: `for u_id, user in enumerate(self.users): ...`. -/
def predict (m : UserKNNModel) : UserKNNModel :=
  m.users.enum.foldl predictStep m

/-- All entries one call of `predict` appends, per user in enumeration
order. -/
def rankingEntries (m : UserKNNModel) : List (Nat × Nat × ℚ) :=
  (m.users.enum.map fun p => userEntries m p.1 p.2).flatten

/-- Two users whose mutual similarity ties the self-similarity:
`su_matrix` is constantly `1`, so the matrix is symmetric and every diagonal
entry is ≥ every off-diagonal entry of its row — yet not strictly. -/
def tieModel : UserKNNModel where
  users := [0, 1]
  items := []
  feedback := fun _ => []
  matrix := fun _ _ => 0
  su_matrix := fun _ _ => 1
  users_id_viewed_item := fun _ => []
  k_neighbors := 2
  rank_length := 10
  as_similar_first := true
  ranking := []

/-- A similarity matrix with strictly dominant diagonal. -/
def strictSU (a b : Nat) : ℚ :=
  if a = b then 1 else 0

/-- Three users under `strictSU`: the self-similarity is the strict maximum
of each row. -/
def strictModel : UserKNNModel where
  users := [0, 1, 2]
  items := []
  feedback := fun _ => []
  matrix := fun _ _ => 0
  su_matrix := strictSU
  users_id_viewed_item := fun _ => []
  k_neighbors := 2
  rank_length := 10
  as_similar_first := true
  ranking := []

/-- The 3-user/3-item fixture of the specification's concrete scenario:
users A,B,C = 0,1,2; items x,y,z = 0,1,2; binary feedback A=(x,y), B=(x,z),
C=(y,z); cosine similarity 1/2 between distinct users, diagonal 1;
`k_neighbors = 1`. -/
def fixtureModel : UserKNNModel where
  users := [0, 1, 2]
  items := [0, 1, 2]
  feedback := fun u =>
    if u = 0 then [0, 1] else if u = 1 then [0, 2] else
    if u = 2 then [1, 2] else []
  matrix := fun u i =>
    if u = 0 then (if i = 0 then 1 else if i = 1 then 1 else 0)
    else if u = 1 then (if i = 0 then 1 else if i = 2 then 1 else 0)
    else if u = 2 then (if i = 1 then 1 else if i = 2 then 1 else 0)
    else 0
  su_matrix := fun a b =>
    if a = b then 1 else if a ≤ 2 ∧ b ≤ 2 then 1/2 else 0
  users_id_viewed_item := fun i =>
    if i = 0 then [0, 1] else if i = 1 then [0, 2] else
    if i = 2 then [1, 2] else []
  k_neighbors := 1
  rank_length := 10
  as_similar_first := true
  ranking := []

/-- One user (key 7) with feedback, two candidate items, and a negative
`rank_length`. -/
def negRankModel : UserKNNModel where
  users := [7]
  items := [0, 1]
  feedback := fun _ => [0]
  matrix := fun _ _ => 0
  su_matrix := fun _ _ => 1
  users_id_viewed_item := fun _ => []
  k_neighbors := 1
  rank_length := -1
  as_similar_first := false
  ranking := []

/-- The same single-user state with `rank_length = 0`. -/
def zeroRankModel : UserKNNModel where
  users := [7]
  items := [0, 1]
  feedback := fun _ => [0]
  matrix := fun _ _ => 0
  su_matrix := fun _ _ => 1
  users_id_viewed_item := fun _ => []
  k_neighbors := 1
  rank_length := 0
  as_similar_first := false
  ranking := []


/-! ### Basic facts about the slice and sort models -/

theorem mem_pySliceTo {α : Type} {n : Int} {l : List α} {a : α}
    (h : a ∈ pySliceTo n l) : a ∈ l :=
  (List.take_sublist _ _).subset h

theorem length_pySliceTo {α : Type} (n : Int) (l : List α) :
    (pySliceTo n l).length = min (pyStop n l.length) l.length :=
  List.length_take _ _

theorem pySliceTo_nonneg {α : Type} {n : Int} (h : 0 ≤ n) (l : List α) :
    pySliceTo n l = l.take n.toNat := by
  simp [pySliceTo, pyStop, h]

theorem pySliceTo_neg {α : Type} {n : Int} (h : n < 0) (l : List α) :
    pySliceTo n l = l.take (l.length - n.natAbs) := by
  simp [pySliceTo, pyStop, not_le.mpr h]

theorem sortByDescScore_perm (l : List (Nat × Nat × ℚ)) :
    (sortByDescScore l).Perm l :=
  List.perm_insertionSort _ l

theorem length_sortByDescScore (l : List (Nat × Nat × ℚ)) :
    (sortByDescScore l).length = l.length :=
  (sortByDescScore_perm l).length_eq

theorem mem_sortByDescScore {l : List (Nat × Nat × ℚ)} {a : Nat × Nat × ℚ} :
    a ∈ sortByDescScore l ↔ a ∈ l :=
  (sortByDescScore_perm l).mem_iff

/-- A sort by a descending rational key is sorted: each element's key is at
least every later element's key. -/
theorem pairwise_insertionSort_key {α : Type} (key : α → ℚ) (l : List α) :
    (l.insertionSort fun a b => key b ≤ key a).Pairwise
      fun a b => key b ≤ key a := by
  haveI : IsTotal α fun a b => key b ≤ key a :=
    ⟨fun a b => le_total (key b) (key a)⟩
  haveI : IsTrans α fun a b => key b ≤ key a :=
    ⟨fun _ _ _ h1 h2 => le_trans h2 h1⟩
  exact List.sorted_insertionSort _ l

/-- Inserting an element whose key misses `q` does not change the key-`q`
entries of a list. -/
theorem filter_orderedInsert_of_ne {α : Type} (r : α → α → Prop)
    [DecidableRel r] (p : α → Bool) (a : α) (L : List α) (hpa : p a = false) :
    ((L.orderedInsert r a).filter p) = L.filter p := by
  rw [List.orderedInsert_eq_take_drop, List.filter_append, List.filter_cons,
    hpa]
  simp only [Bool.false_eq_true, if_false]
  rw [← List.filter_append, List.takeWhile_append_dropWhile]

/-- Inserting an element whose key hits `q` prepends it to the key-`q`
entries, provided every element the insertion skips has a key missing `q`. -/
theorem filter_orderedInsert_of_eq {α : Type} (r : α → α → Prop)
    [DecidableRel r] (p : α → Bool) (a : α) (L : List α) (hpa : p a = true)
    (hskip : ∀ b, ¬ r a b → p b = false) :
    ((L.orderedInsert r a).filter p) = a :: L.filter p := by
  rw [List.orderedInsert_eq_take_drop, List.filter_append, List.filter_cons,
    hpa]
  have ht : ((L.takeWhile fun b => ¬ r a b).filter p) = [] := by
    rw [List.filter_eq_nil_iff]
    intro b hb
    have hmem := List.mem_takeWhile_imp hb
    simp only [decide_eq_true_eq] at hmem
    simp [hskip b hmem]
  have hL : L.filter p = ((L.takeWhile fun b => ¬ r a b).filter p) ++
      ((L.dropWhile fun b => ¬ r a b).filter p) := by
    rw [← List.filter_append, List.takeWhile_append_dropWhile]
  rw [ht, hL, ht]
  simp

/-- Stability of the descending-key sort: for every key value `q`, the
key-`q` entries of the sorted list are exactly the key-`q` entries of the
input, in input order. -/
theorem filter_insertionSort_key {α : Type} (key : α → ℚ) (q : ℚ)
    (L : List α) :
    ((L.insertionSort fun a b => key b ≤ key a).filter
        fun x => key x = q) =
      L.filter fun x => key x = q := by
  induction L with
  | nil => rfl
  | cons a L ih =>
    rw [List.insertionSort]
    by_cases h : key a = q
    · rw [filter_orderedInsert_of_eq _ _ a _ (by simp [h])
        (fun b hb => by
          simp only [not_le] at hb
          simp [show key b ≠ q from fun hbq => absurd (hbq ▸ hb) (by simp [h])]),
        ih, List.filter_cons]
      simp [h]
    · rw [filter_orderedInsert_of_ne _ _ a _ (by simp [h]), ih,
        List.filter_cons]
      simp [h]

/-! ### Characterisation of `predict` -/

/-- One loop iteration only appends that pair's entries to the ranking. -/
theorem predictStep_eq (m : UserKNNModel) (p : Nat × Nat) :
    predictStep m p =
      { m with ranking := m.ranking ++ userEntries m p.1 p.2 } := by
  unfold predictStep userEntries strategyScores
  by_cases h : (m.feedback p.2).length ≠ 0
  · rw [if_pos h, if_pos h]
    by_cases hs : m.as_similar_first
    · rw [if_pos hs, if_pos hs]
    · rw [if_neg hs, if_neg hs]
  · rw [if_neg h, if_neg h, List.append_nil]

theorem foldl_predictStep (m : UserKNNModel) (l : List (Nat × Nat)) :
    ∀ r : List (Nat × Nat × ℚ),
      l.foldl predictStep { m with ranking := r } =
        { m with ranking :=
            r ++ (l.map fun p => userEntries m p.1 p.2).flatten } := by
  induction l with
  | nil => intro r; simp
  | cons p l ih =>
    intro r
    rw [List.foldl_cons, predictStep_eq]
    show l.foldl predictStep
        { m with ranking := r ++ userEntries m p.1 p.2 } = _
    rw [ih (r ++ userEntries m p.1 p.2)]
    simp [List.append_assoc]

/-- `predict` equals the input state with the per-user entries appended to
the ranking, everything else untouched. -/
theorem predict_eq (m : UserKNNModel) :
    predict m = { m with ranking := m.ranking ++ rankingEntries m } := by
  show m.users.enum.foldl predictStep { m with ranking := m.ranking } = _
  exact foldl_predictStep m m.users.enum m.ranking

/-- Flattening an `ite`-guarded map is flattening the map over the filtered
list. -/
theorem flatten_map_ite {β γ : Type} (c : β → Prop) [DecidablePred c]
    (f : β → List γ) :
    ∀ l : List β,
      (l.map fun p => if c p then f p else []).flatten =
        ((l.filter fun p => c p).map f).flatten
  | [] => rfl
  | p :: l => by
    by_cases h : c p <;>
      simp [List.filter_cons, h, flatten_map_ite c f l]

theorem pySliceTo_zero {α : Type} (l : List α) : pySliceTo 0 l = [] := rfl

theorem mem_pySliceOneTo {α : Type} {n : Int} {l : List α} {a : α}
    (h : a ∈ pySliceOneTo n l) : a ∈ l.drop 1 := by
  unfold pySliceOneTo pySliceTo at h
  rw [List.drop_take] at h
  exact (List.take_sublist _ _).subset h

/-- C1 counterexample: with two users of constant similarity `1`, the matrix
is symmetric and each diagonal entry is ≥ every off-diagonal entry of its
row, yet user `1`'s neighbor slice `neighbors[1:k]` contains user `1`
itself: the stable sort breaks the tie in favour of user `0`, so position 0
is not the self-entry. -/
theorem C1_counterexample :
    tieModel.su_matrix 0 1 = tieModel.su_matrix 1 0 ∧
    tieModel.su_matrix 0 0 ≥ tieModel.su_matrix 0 1 ∧
    tieModel.su_matrix 1 1 ≥ tieModel.su_matrix 1 0 ∧
    1 ∈ neighborSlice tieModel 1 := by
  decide

/-- C1 (amended): if the self-similarity is the STRICT maximum of the user's
row (and the matrix is symmetric), then the Strategy B neighbor slice
`neighbors[1:k_neighbors]` never contains the user. -/
theorem C1_neighbor_slice_excludes_self (m : UserKNNModel) (u : Nat)
    (hu : u < m.users.length)
    (hsym : ∀ a b, m.su_matrix a b = m.su_matrix b a)
    (hdom : ∀ v, v < m.users.length → v ≠ u →
      m.su_matrix u v < m.su_matrix u u) :
    u ∉ neighborSlice m u := by
  intro hmem
  have htail : u ∈ (neighborsOf m u).drop 1 := mem_pySliceOneTo hmem
  have hperm : (neighborsOf m u).Perm (List.range m.users.length) :=
    List.perm_insertionSort _ _
  have hnodup : (neighborsOf m u).Nodup :=
    hperm.nodup_iff.mpr (List.nodup_range _)
  have hsorted : (neighborsOf m u).Pairwise
      fun a b => m.su_matrix u b ≤ m.su_matrix u a :=
    pairwise_insertionSort_key (fun v => m.su_matrix u v) _
  cases hL : neighborsOf m u with
  | nil => rw [hL] at htail; simp at htail
  | cons h t =>
    rw [hL] at htail hperm hnodup hsorted
    have hhead_lt : h < m.users.length :=
      List.mem_range.mp (hperm.subset (List.mem_cons_self h t))
    have hu_mem : u ∈ h :: t := hperm.symm.subset (List.mem_range.mpr hu)
    have hhu : h = u := by
      by_contra hne
      have hut : u ∈ t := by
        cases List.mem_cons.mp hu_mem with
        | inl h1 => exact absurd h1.symm hne
        | inr h2 => exact h2
      have hle : m.su_matrix u u ≤ m.su_matrix u h :=
        (List.pairwise_cons.mp hsorted).1 u hut
      exact absurd hle (not_le.mpr (hdom h hhead_lt hne))
    subst hhu
    exact (List.nodup_cons.mp hnodup).1 (by simpa using htail)

theorem C1_witness :
    1 < strictModel.users.length ∧ (1 : Nat) ∉ neighborSlice strictModel 1 :=
  ⟨by decide,
    C1_neighbor_slice_excludes_self strictModel 1 (by decide)
      (fun a b => by
        show strictSU a b = strictSU b a
        unfold strictSU
        by_cases h : a = b
        · rw [if_pos h, if_pos h.symm]
        · rw [if_neg h, if_neg (Ne.symm h)])
      (by decide)⟩

/-- C2 counterexample: `rank_length = -1 ≤ 0` is not rejected — `predict`
completes and still produces a ranking entry (Python's negative slice keeps
`len - 1` of the two candidates). -/
theorem C2_counterexample :
    negRankModel.rank_length ≤ 0 ∧
    (predict negRankModel).ranking = [(7, 0, 0)] := by
  decide

/-- C2 (amended): no configuration validation exists and no error is ever
reported; `rank_length = 0` does yield an empty ranking (the `[:0]` slice),
but negative values silently truncate instead of aborting the run. -/
theorem C2_no_validation_rank_length_zero (m : UserKNNModel)
    (h : m.rank_length = 0) : (predict m).ranking = m.ranking := by
  have hz : ∀ u_id user, userEntries m u_id user = [] := by
    intro u_id user
    unfold userEntries strategyScores predict_similar_first_scores
      predict_scores
    by_cases hf : (m.feedback user).length ≠ 0
    · rw [if_pos hf]
      by_cases hs : m.as_similar_first
      · rw [if_pos hs, h, pySliceTo_zero]
      · rw [if_neg hs, h, pySliceTo_zero]
    · rw [if_neg hf]
  have hre : rankingEntries m = [] := by
    unfold rankingEntries
    rw [List.map_congr_left fun p _ => hz p.1 p.2]
    simp
  rw [predict_eq]
  show m.ranking ++ rankingEntries m = m.ranking
  rw [hre, List.append_nil]

theorem C2_witness :
    zeroRankModel.rank_length = 0 ∧
    (predict zeroRankModel).ranking = zeroRankModel.ranking :=
  ⟨rfl, C2_no_validation_rank_length_zero zeroRankModel rfl⟩

/-- C3: on the 3-user/3-item fixture with `k_neighbors = 1`, user A's sole
candidate is item z; Strategy B scores it `0` (the neighbor slice `[1:1]` is
empty), Strategy A scores it `1/2` (top-1 of the two `1/2` affinities). -/
theorem C3_fixture_divergence :
    unpredictedItems fixtureModel 0 = [2] ∧
    predict_similar_first_scores fixtureModel 0 0 [2] = [(0, 2, 0)] ∧
    predict_scores fixtureModel 0 0 [2] = [(0, 2, 1/2)] := by
  refine ⟨by decide, by with_unfolding_all decide, by with_unfolding_all decide⟩

/-- Sorting descending and taking a prefix of length `k` yields a top-`k`
split: a permutation of the input into the taken part and the rest, with
every taken element at least every dropped element. -/
theorem topk_sum_spec (k : Nat) (aff : List ℚ) :
    ∃ taken dropped : List ℚ,
      aff.Perm (taken ++ dropped) ∧
      taken.length = min k aff.length ∧
      (∀ x ∈ taken, ∀ y ∈ dropped, y ≤ x) ∧
      ((aff.insertionSort fun a b => b ≤ a).take k).sum = taken.sum := by
  refine ⟨(aff.insertionSort fun a b => b ≤ a).take k,
    (aff.insertionSort fun a b => b ≤ a).drop k, ?_, ?_, ?_, rfl⟩
  · rw [List.take_append_drop]
    exact (List.perm_insertionSort _ _).symm
  · rw [List.length_take, List.length_insertionSort]
  · have hp : (aff.insertionSort fun a b => b ≤ a).Pairwise
        fun a b => b ≤ a :=
      pairwise_insertionSort_key (fun q : ℚ => q) aff
    rw [← List.take_append_drop k (aff.insertionSort fun a b => b ≤ a)]
      at hp
    exact fun x hx y hy => (List.pairwise_append.mp hp).2.2 x hx y hy

/-- C4: Strategy A's per-item score is the sum of the `k_neighbors` largest
affinities between the user and the item's raters; with fewer than `k`
raters the sum runs over all of them, and an unrated item scores `0` (the
computation is total — no error is possible). -/
theorem C4_strategyA_topk (m : UserKNNModel) (user_id item : Nat)
    (hk : 0 ≤ m.k_neighbors) :
    (∃ taken dropped : List ℚ,
        ((m.users_id_viewed_item item).map fun v =>
            m.su_matrix user_id v).Perm (taken ++ dropped) ∧
        taken.length = min m.k_neighbors.toNat
          (m.users_id_viewed_item item).length ∧
        (∀ x ∈ taken, ∀ y ∈ dropped, y ≤ x) ∧
        sim_sum_scores m user_id item = taken.sum) ∧
    (m.users_id_viewed_item item = [] →
      sim_sum_scores m user_id item = 0) ∧
    ((m.users_id_viewed_item item).length ≤ m.k_neighbors.toNat →
      sim_sum_scores m user_id item =
        ((m.users_id_viewed_item item).map fun v =>
            m.su_matrix user_id v).sum) := by
  have hsum : sim_sum_scores m user_id item =
      ((((m.users_id_viewed_item item).map fun v =>
          m.su_matrix user_id v).insertionSort fun a b => b ≤ a).take
        m.k_neighbors.toNat).sum := by
    unfold sim_sum_scores
    rw [pySliceTo_nonneg hk]
  refine ⟨?_, ?_, ?_⟩
  · obtain ⟨taken, dropped, h1, h2, h3, h4⟩ :=
      topk_sum_spec m.k_neighbors.toNat
        ((m.users_id_viewed_item item).map fun v => m.su_matrix user_id v)
    exact ⟨taken, dropped, h1, by rwa [List.length_map] at h2, h3,
      by rw [hsum, h4]⟩
  · intro h0
    rw [hsum, h0]
    simp
  · intro hle
    rw [hsum, List.take_of_length_le]
    · exact (List.perm_insertionSort _ _).sum_eq
    · rw [List.length_insertionSort, List.length_map]
      exact hle

theorem C4_witness :
    0 ≤ fixtureModel.k_neighbors ∧
    ((∃ taken dropped : List ℚ,
        ((fixtureModel.users_id_viewed_item 2).map fun v =>
            fixtureModel.su_matrix 0 v).Perm (taken ++ dropped) ∧
        taken.length = min fixtureModel.k_neighbors.toNat
          (fixtureModel.users_id_viewed_item 2).length ∧
        (∀ x ∈ taken, ∀ y ∈ dropped, y ≤ x) ∧
        sim_sum_scores fixtureModel 0 2 = taken.sum) ∧
    (fixtureModel.users_id_viewed_item 2 = [] →
      sim_sum_scores fixtureModel 0 2 = 0) ∧
    ((fixtureModel.users_id_viewed_item 2).length ≤
        fixtureModel.k_neighbors.toNat →
      sim_sum_scores fixtureModel 0 2 =
        ((fixtureModel.users_id_viewed_item 2).map fun v =>
            fixtureModel.su_matrix 0 v).sum)) :=
  ⟨by decide, C4_strategyA_topk fixtureModel 0 2 (by decide)⟩

theorem matrix_eq_zero_of_mem_unpredicted {m : UserKNNModel} {u_id i : Nat}
    (h : i ∈ unpredictedItems m u_id) : m.matrix u_id i = 0 := by
  unfold unpredictedItems at h
  exact of_decide_eq_true (List.mem_filter.mp h).2

/-- Every entry either strategy emits is shaped
`(user, items[item], score)` for some unpredicted item of that user. -/
theorem mem_strategyScores {m : UserKNNModel} {user u_id : Nat}
    {e : Nat × Nat × ℚ} (h : e ∈ strategyScores m user u_id) :
    ∃ item s, item ∈ unpredictedItems m u_id ∧
      e = (user, m.items.getD item 0, s) := by
  unfold strategyScores at h
  by_cases hs : m.as_similar_first
  · rw [if_pos hs] at h
    unfold predict_similar_first_scores at h
    have h2 := mem_sortByDescScore.mp (mem_pySliceTo h)
    unfold predictionsB at h2
    rcases List.mem_map.mp h2 with ⟨item, hitem, rfl⟩
    exact ⟨item, _, hitem, rfl⟩
  · rw [if_neg hs] at h
    unfold predict_scores at h
    have h2 := mem_sortByDescScore.mp (mem_pySliceTo h)
    unfold predictionsA at h2
    rcases List.mem_map.mp h2 with ⟨item, hitem, rfl⟩
    exact ⟨item, _, hitem, rfl⟩

/-- C5: every triple `predict` appends to the ranking, under either
strategy, is `(user, items[item], score)` for an enumerated user and an
item whose rating-matrix entry is `0` — no already-rated item is ever
recommended. -/
theorem C5_only_unrated_items (m : UserKNNModel) (e : Nat × Nat × ℚ)
    (he : e ∈ (predict m).ranking) :
    e ∈ m.ranking ∨
      ∃ u_id user item s, (u_id, user) ∈ m.users.enum ∧
        e = (user, m.items.getD item 0, s) ∧ m.matrix u_id item = 0 := by
  rw [predict_eq] at he
  have he' : e ∈ m.ranking ++ rankingEntries m := he
  cases List.mem_append.mp he' with
  | inl h => exact Or.inl h
  | inr h =>
    right
    unfold rankingEntries at h
    rcases List.mem_flatten.mp h with ⟨l, hl, hel⟩
    rcases List.mem_map.mp hl with ⟨p, hp, rfl⟩
    unfold userEntries at hel
    by_cases hf : (m.feedback p.2).length ≠ 0
    · rw [if_pos hf] at hel
      rcases mem_strategyScores hel with ⟨item, s, hitem, rfl⟩
      exact ⟨p.1, p.2, item, s, hp, rfl,
        matrix_eq_zero_of_mem_unpredicted hitem⟩
    · rw [if_neg hf] at hel
      exact absurd hel (List.not_mem_nil e)

theorem C5_witness :
    ((0, 2, 0) : Nat × Nat × ℚ) ∈ (predict fixtureModel).ranking ∧
    (((0, 2, 0) : Nat × Nat × ℚ) ∈ fixtureModel.ranking ∨
      ∃ u_id user item s, (u_id, user) ∈ fixtureModel.users.enum ∧
        ((0, 2, 0) : Nat × Nat × ℚ) =
          (user, fixtureModel.items.getD item 0, s) ∧
        fixtureModel.matrix u_id item = 0) :=
  ⟨by with_unfolding_all decide,
    C5_only_unrated_items fixtureModel (0, 2, 0)
      (by with_unfolding_all decide)⟩

/-- C6: with a positive `rank_length`, each user contributes at most
`min rank_length |candidates|` ranking entries, under either strategy. -/
theorem C6_length_bound (m : UserKNNModel) (u_id user : Nat)
    (h : 0 < m.rank_length) :
    (userEntries m u_id user).length ≤
      min m.rank_length.toNat (unpredictedItems m u_id).length := by
  unfold userEntries strategyScores
  by_cases hf : (m.feedback user).length ≠ 0
  · rw [if_pos hf]
    by_cases hs : m.as_similar_first
    · rw [if_pos hs]
      unfold predict_similar_first_scores
      rw [pySliceTo_nonneg (le_of_lt h), List.length_take,
        length_sortByDescScore]
      unfold predictionsB
      rw [List.length_map]
    · rw [if_neg hs]
      unfold predict_scores
      rw [pySliceTo_nonneg (le_of_lt h), List.length_take,
        length_sortByDescScore]
      unfold predictionsA
      rw [List.length_map]
  · rw [if_neg hf]
    simp

theorem C6_witness :
    0 < fixtureModel.rank_length ∧
    (userEntries fixtureModel 0 0).length ≤
      min fixtureModel.rank_length.toNat
        (unpredictedItems fixtureModel 0).length :=
  ⟨by decide, C6_length_bound fixtureModel 0 0 (by decide)⟩

/-- C7: within a user's contribution, scores are non-increasing; and for
every score value `q`, the equal-score entries of the sorted prediction list
(either strategy) appear exactly as in the unsorted prediction list, which
enumerates candidates in ascending item-index order — the sort is stable,
so ties keep ascending candidate order, and the `[:rank_length]` prefix
preserves that order. -/
theorem C7_descending_and_stable (m : UserKNNModel) (u_id user : Nat)
    (q : ℚ) :
    (userEntries m u_id user).Pairwise (fun a b => b.2.2 ≤ a.2.2) ∧
    ((sortByDescScore
        (predictionsA m user u_id (unpredictedItems m u_id))).filter
          fun e => e.2.2 = q) =
      ((predictionsA m user u_id (unpredictedItems m u_id)).filter
        fun e => e.2.2 = q) ∧
    ((sortByDescScore
        (predictionsB m user u_id (unpredictedItems m u_id))).filter
          fun e => e.2.2 = q) =
      ((predictionsB m user u_id (unpredictedItems m u_id)).filter
        fun e => e.2.2 = q) := by
  refine ⟨?_, ?_, ?_⟩
  · unfold userEntries strategyScores
    by_cases hf : (m.feedback user).length ≠ 0
    · rw [if_pos hf]
      by_cases hs : m.as_similar_first
      · rw [if_pos hs]
        unfold predict_similar_first_scores
        have hp : (sortByDescScore (predictionsB m user u_id
            (unpredictedItems m u_id))).Pairwise
              fun a b => b.2.2 ≤ a.2.2 :=
          pairwise_insertionSort_key (fun e : Nat × Nat × ℚ => e.2.2) _
        exact List.Pairwise.sublist (List.take_sublist _ _) hp
      · rw [if_neg hs]
        unfold predict_scores
        have hp : (sortByDescScore (predictionsA m user u_id
            (unpredictedItems m u_id))).Pairwise
              fun a b => b.2.2 ≤ a.2.2 :=
          pairwise_insertionSort_key (fun e : Nat × Nat × ℚ => e.2.2) _
        exact List.Pairwise.sublist (List.take_sublist _ _) hp
    · rw [if_neg hf]
      exact List.Pairwise.nil
  · exact filter_insertionSort_key (fun e : Nat × Nat × ℚ => e.2.2) q _
  · exact filter_insertionSort_key (fun e : Nat × Nat × ℚ => e.2.2) q _

/-- C8: a user with empty training feedback contributes zero entries (no
error — the `pass` branch), and the whole appended ranking equals the one
obtained by simply skipping all such users. -/
theorem C8_cold_start_skipped (m : UserKNNModel) (u_id user : Nat)
    (hcold : (m.feedback user).length = 0) :
    userEntries m u_id user = [] ∧
    rankingEntries m =
      ((m.users.enum.filter fun p => (m.feedback p.2).length ≠ 0).map
        fun p => strategyScores m p.2 p.1).flatten := by
  constructor
  · unfold userEntries
    rw [if_neg fun h => h hcold]
  · unfold rankingEntries
    exact flatten_map_ite (fun p => (m.feedback p.2).length ≠ 0)
      (fun p => strategyScores m p.2 p.1) m.users.enum

theorem C8_witness :
    (fixtureModel.feedback 5).length = 0 ∧
    (userEntries fixtureModel 0 5 = [] ∧
    rankingEntries fixtureModel =
      ((fixtureModel.users.enum.filter
          fun p => (fixtureModel.feedback p.2).length ≠ 0).map
        fun p => strategyScores fixtureModel p.2 p.1).flatten) :=
  ⟨rfl, C8_cold_start_skipped fixtureModel 0 5 rfl⟩

/-- C9: `predict` only appends to the ranking — the similarity matrix, the
rating matrix and the item-raters index are unchanged, and the previous
ranking is an unmodified prefix of the new one. -/
theorem C9_predict_frame (m : UserKNNModel) :
    (predict m).su_matrix = m.su_matrix ∧
    (predict m).matrix = m.matrix ∧
    (predict m).users_id_viewed_item = m.users_id_viewed_item ∧
    (predict m).ranking = m.ranking ++ rankingEntries m := by
  rw [predict_eq]
  exact ⟨rfl, rfl, rfl, rfl⟩

/-- C10: with a negative `rank_length` and a nonempty candidate list, both
strategies still complete and emit `max 0 (|candidates| + rank_length)`
entries — Python's negative-bound slice silently drops the trailing
entries instead of rejecting the configuration. -/
theorem C10_negative_rank_truncates (m : UserKNNModel) (user u_id : Nat)
    (hneg : m.rank_length < 0) (hne : unpredictedItems m u_id ≠ []) :
    ((predict_scores m user u_id (unpredictedItems m u_id)).length : Int) =
      max 0 ((unpredictedItems m u_id).length + m.rank_length) ∧
    ((predict_similar_first_scores m user u_id
        (unpredictedItems m u_id)).length : Int) =
      max 0 ((unpredictedItems m u_id).length + m.rank_length) := by
  have habs : (m.rank_length.natAbs : Int) = -m.rank_length :=
    Int.ofNat_natAbs_of_nonpos (le_of_lt hneg)
  constructor
  · unfold predict_scores
    rw [pySliceTo_neg hneg, List.length_take, length_sortByDescScore]
    unfold predictionsA
    rw [List.length_map]
    omega
  · unfold predict_similar_first_scores
    rw [pySliceTo_neg hneg, List.length_take, length_sortByDescScore]
    unfold predictionsB
    rw [List.length_map]
    omega

theorem C10_witness :
    negRankModel.rank_length < 0 ∧
    unpredictedItems negRankModel 0 ≠ [] ∧
    (((predict_scores negRankModel 7 0
          (unpredictedItems negRankModel 0)).length : Int) =
        max 0 ((unpredictedItems negRankModel 0).length +
          negRankModel.rank_length) ∧
    ((predict_similar_first_scores negRankModel 7 0
          (unpredictedItems negRankModel 0)).length : Int) =
        max 0 ((unpredictedItems negRankModel 0).length +
          negRankModel.rank_length)) :=
  ⟨by decide, by decide,
    C10_negative_rank_truncates negRankModel 7 0 (by decide) (by decide)⟩
